import Mathlib

/-!
Shallow embedding of the brain-tumor-management system's core
(`app/models/patient.py` and `app/models/predict.py`).

Modelling conventions:
* The SQLite database is a `DB` record holding the two tables as
  insertion-ordered lists of rows plus the AUTOINCREMENT counters.
* Every repository call opens a fresh connection; a storage fault anywhere in
  the call (connection, execute, commit) is modelled by a `Fault` parameter
  carrying the Python exception message `str(e)`.  Each public operation is
  the `try/except` catch of a `...Raw` function whose `Except.error` value is
  the exception the body would raise.
* `REAL` columns and numpy floats are modelled with exact rationals `ℚ`.
* `datetime.now().strftime` is modelled by a `today : String` parameter.
* The code never executes `PRAGMA foreign_keys = ON`, so SQLite does not
  enforce the declared `FOREIGN KEY (patient_id)`; the embedding of `add_scan`
  therefore inserts unconditionally, matching the observed sqlite3 behaviour.
* SQLite's `ORDER BY` sorter returns rows with equal keys in table-scan
  (insertion) order; it is modelled by the stable `List.mergeSort`.
* SQLite `LIKE` folds ASCII letters and treats `%` and `_` in the pattern as
  wildcards; `likeMatch` implements exactly this matcher.
-/

namespace BrainTumor

/-- One row of the `patients` table (schema of `init_db`). -/
structure PatientRow where
  id : Nat
  name : String
  age : Int
  gender : String
  contact : Option String
  email : Option String
  address : Option String
  medical_history : Option String
  registration_date : String
deriving DecidableEq

/-- One row of the `scans` table (schema of `init_db`). -/
structure ScanRow where
  id : Nat
  patient_id : Nat
  image_path : String
  tumor_type : Option String
  confidence : Option ℚ
  scan_date : String
  doctor_notes : Option String
deriving DecidableEq

/-- The SQLite database: both tables in insertion (rowid) order, plus the
AUTOINCREMENT counters assigning the next surrogate key. -/
structure DB where
  patients : List PatientRow
  scans : List ScanRow
  nextPatientId : Nat
  nextScanId : Nat
deriving DecidableEq

/-- The database produced by `init_db` on a fresh file. -/
def emptyDB : DB := ⟨[], [], 1, 1⟩

/-- A storage fault for one repository call: `none` means the sqlite calls all
succeed, `some e` means one of them raised an exception with `str(e) = e`. -/
abbrev Fault := Option String

/-- Well-formedness maintained by the schema: AUTOINCREMENT assigns strictly
increasing ids, so ids increase along insertion order and stay below the
counters. -/
def DB.WF (db : DB) : Prop :=
  db.patients.Pairwise (fun a b => a.id < b.id) ∧
  (∀ p ∈ db.patients, p.id < db.nextPatientId) ∧
  db.scans.Pairwise (fun a b => a.id < b.id) ∧
  (∀ s ∈ db.scans, s.id < db.nextScanId)

instance (db : DB) : Decidable db.WF := by
  unfold DB.WF; infer_instance

/-- SQLite `ORDER BY name` comparison (BINARY collation: code-point order). -/
def nameLe (a b : PatientRow) : Bool := decide (a.name ≤ b.name)

/-- SQLite `ORDER BY scan_date DESC` comparison. -/
def dateDescLe (a b : ScanRow) : Bool := decide (b.scan_date ≤ a.scan_date)

/-- ASCII-only lower-casing, as used by SQLite `LIKE`. -/
def asciiLower (c : Char) : Char :=
  if 'A' ≤ c ∧ c ≤ 'Z' then Char.ofNat (c.toNat + 32) else c

/-- SQLite `LIKE` matcher: `%` matches any sequence, `_` any single
character, other characters match ASCII-case-insensitively. -/
def likeMatch : List Char → List Char → Bool
  | [], [] => true
  | [], _ :: _ => false
  | p :: ps, s =>
      if p = '%' then
        likeMatch ps s ||
          (match s with
           | [] => false
           | _ :: s2 => likeMatch (p :: ps) s2)
      else
        match s with
        | [] => false
        | c :: s2 =>
            if p = '_' then likeMatch ps s2
            else (asciiLower p == asciiLower c) && likeMatch ps s2
termination_by p s => p.length + s.length

/-- Evaluation of `s LIKE pattern` on a non-NULL text column. -/
def sqlLike (pat s : String) : Bool := likeMatch pat.data s.data

/-- Evaluation of `col LIKE pattern` on a nullable column: `NULL LIKE pattern`
is NULL, which is not a match. -/
def sqlLikeOpt (pat : String) (field : Option String) : Bool :=
  match field with
  | none => false
  | some s => sqlLike pat s

/-! ### patient.py operations

Each `...Raw` function is the body of the Python `try:` block; the public
operation is the surrounding `except Exception` handler. -/

def add_patientRaw (db : DB) (fault : Fault) (name : String) (age : Int)
    (gender : String) (contact email address medical_history : Option String)
    (today : String) : Except String (DB × Nat) :=
  match fault with
  | some e => .error e
  | none =>
      let row : PatientRow :=
        { id := db.nextPatientId, name := name, age := age, gender := gender,
          contact := contact, email := email, address := address,
          medical_history := medical_history, registration_date := today }
      .ok ({ db with
              patients := db.patients ++ [row],
              nextPatientId := db.nextPatientId + 1 }, db.nextPatientId)

/-- Python `add_patient`: INSERT a patient row, returning `cursor.lastrowid`;
on any exception logs and returns `None`. -/
def add_patient (db : DB) (fault : Fault) (name : String) (age : Int)
    (gender : String) (contact email address medical_history : Option String)
    (today : String) : DB × Option Nat :=
  match add_patientRaw db fault name age gender contact email address medical_history today with
  | .ok (db2, pid) => (db2, some pid)
  | .error _ => (db, none)

def get_patientRaw (db : DB) (fault : Fault) (patient_id : Nat) :
    Except String (Option PatientRow) :=
  match fault with
  | some e => .error e
  | none => .ok (db.patients.find? (fun p => p.id == patient_id))

/-- Python `get_patient`: SELECT by id, `fetchone`; `None` when absent or on error. -/
def get_patient (db : DB) (fault : Fault) (patient_id : Nat) : Option PatientRow :=
  match get_patientRaw db fault patient_id with
  | .ok r => r
  | .error _ => none

def get_all_patientsRaw (db : DB) (fault : Fault) :
    Except String (List PatientRow) :=
  match fault with
  | some e => .error e
  | none => .ok (db.patients.mergeSort nameLe)

/-- Python `get_all_patients`: SELECT * ORDER BY name; `[]` on error. -/
def get_all_patients (db : DB) (fault : Fault) : List PatientRow :=
  match get_all_patientsRaw db fault with
  | .ok r => r
  | .error _ => []

def search_patientsRaw (db : DB) (fault : Fault) (query : String) :
    Except String (List PatientRow) :=
  match fault with
  | some e => .error e
  | none =>
      let search_term := "%" ++ query ++ "%"
      .ok ((db.patients.filter (fun p =>
        sqlLike search_term p.name || sqlLikeOpt search_term p.contact ||
          sqlLikeOpt search_term p.email)).mergeSort nameLe)

/-- Python `search_patients`: WHERE name LIKE ? OR contact LIKE ? OR email LIKE ?
ORDER BY name, with the query wrapped in `%...%`; `[]` on error. -/
def search_patients (db : DB) (fault : Fault) (query : String) : List PatientRow :=
  match search_patientsRaw db fault query with
  | .ok r => r
  | .error _ => []

def add_scanRaw (db : DB) (fault : Fault) (patient_id : Nat) (image_path : String)
    (tumor_type : Option String) (confidence : Option ℚ)
    (doctor_notes : Option String) (today : String) : Except String (DB × Nat) :=
  match fault with
  | some e => .error e
  | none =>
      let row : ScanRow :=
        { id := db.nextScanId, patient_id := patient_id, image_path := image_path,
          tumor_type := tumor_type, confidence := confidence, scan_date := today,
          doctor_notes := doctor_notes }
      .ok ({ db with
              scans := db.scans ++ [row],
              nextScanId := db.nextScanId + 1 }, db.nextScanId)

/-- Python `add_scan`: INSERT a scan row, returning `cursor.lastrowid`; `None` on
error.  `PRAGMA foreign_keys` is never enabled, so the declared foreign key on
`patient_id` is not checked and the INSERT succeeds for any `patient_id`. -/
def add_scan (db : DB) (fault : Fault) (patient_id : Nat) (image_path : String)
    (tumor_type : Option String) (confidence : Option ℚ)
    (doctor_notes : Option String) (today : String) : DB × Option Nat :=
  match add_scanRaw db fault patient_id image_path tumor_type confidence doctor_notes today with
  | .ok (db2, sid) => (db2, some sid)
  | .error _ => (db, none)

def get_scanRaw (db : DB) (fault : Fault) (scan_id : Nat) :
    Except String (Option ScanRow) :=
  match fault with
  | some e => .error e
  | none => .ok (db.scans.find? (fun s => s.id == scan_id))

/-- Python `get_scan`: SELECT by id, `fetchone`; `None` when absent or on error. -/
def get_scan (db : DB) (fault : Fault) (scan_id : Nat) : Option ScanRow :=
  match get_scanRaw db fault scan_id with
  | .ok r => r
  | .error _ => none

def get_patient_scansRaw (db : DB) (fault : Fault) (patient_id : Nat) :
    Except String (List ScanRow) :=
  match fault with
  | some e => .error e
  | none => .ok ((db.scans.filter (fun s => s.patient_id == patient_id)).mergeSort dateDescLe)

/-- Python `get_patient_scans`: WHERE patient_id = ? ORDER BY scan_date DESC;
`[]` on error. -/
def get_patient_scans (db : DB) (fault : Fault) (patient_id : Nat) : List ScanRow :=
  match get_patient_scansRaw db fault patient_id with
  | .ok r => r
  | .error _ => []

def update_scanRaw (db : DB) (fault : Fault) (scan_id : Nat)
    (doctor_notes : Option String) : Except String DB :=
  match fault with
  | some e => .error e
  | none =>
      .ok { db with scans := db.scans.map (fun s =>
        if s.id == scan_id then { s with doctor_notes := doctor_notes } else s) }

/-- Python `update_scan`: UPDATE scans SET doctor_notes = ? WHERE id = ?; returns
`True` whenever the statement runs (even if no row matched), `False` on
error. -/
def update_scan (db : DB) (fault : Fault) (scan_id : Nat)
    (doctor_notes : Option String) : DB × Bool :=
  match update_scanRaw db fault scan_id doctor_notes with
  | .ok db2 => (db2, true)
  | .error _ => (db, false)

/-! ### predict.py

External library behaviour (TensorFlow, PIL, the filesystem) is supplied as
explicit function parameters; the module's own control flow is embedded
directly. -/

/-- A Keras model as used by the module: its input shape, the width of its
categorical output, and its forward pass `model.predict` on the single batch
element (which may raise, e.g. on an internal shape error). -/
structure KerasModel where
  inputShape : Nat × Nat × Nat
  numClasses : Nat
  forward : List ℚ → Except String (List ℚ)

/-- A length-4 probability vector: what a `Dense(4, activation='softmax')`
output layer produces for any input. -/
structure ProbVec4 where
  p : List ℚ
  len4 : p.length = 4
  bounds : ∀ x ∈ p, 0 ≤ x ∧ x ≤ 1
  sum1 : p.sum = 1

/-- The canonical model artifact location used by `load_brain_tumor_model`. -/
def brain_tumor_model_path : String := "app/models/brain_tumor_classifier.h5"

/-- The fixed ordered list of alternative artifact locations
(`moduleDir` is `os.path.dirname(os.path.abspath(__file__))`). -/
def alternative_paths (moduleDir : String) : List String :=
  ["brain_tumor_classifier.h5", "app/models/brain_tumor_classifier.h5",
   moduleDir ++ "/brain_tumor_classifier.h5"]

/-- Body of the `try:` block of `load_brain_tumor_model`: resolve the artifact
path (primary, then first existing alternative, else `FileNotFoundError`) and
load it; `load_model` itself may raise. -/
def load_brain_tumor_modelRaw (pathExists : String → Bool)
    (load_model : String → Except String KerasModel) (moduleDir : String) :
    Except String KerasModel :=
  if pathExists brain_tumor_model_path then load_model brain_tumor_model_path
  else
    match (alternative_paths moduleDir).find? pathExists with
    | some p => load_model p
    | none =>
        .error ("Model file not found at " ++ brain_tumor_model_path ++
          " or alternative paths")

/-- The placeholder model built in the `except` branch:
`Input(shape=(150,150,3))`, a small CNN, and `Dense(4, activation='softmax')`.
Its (untrained, initialization-dependent) forward pass is the parameter
`placeholderOut`; softmax guarantees the output is a length-4 probability
vector. -/
def placeholder_model (placeholderOut : List ℚ → ProbVec4) : KerasModel :=
  { inputShape := (150, 150, 3), numClasses := 4,
    forward := fun t => .ok (placeholderOut t).p }

/-- Python `load_brain_tumor_model`: try the artifact lookups; on any exception build
and return the placeholder model. -/
def load_brain_tumor_model (pathExists : String → Bool)
    (load_model : String → Except String KerasModel) (moduleDir : String)
    (placeholderOut : List ℚ → ProbVec4) : KerasModel :=
  match load_brain_tumor_modelRaw pathExists load_model moduleDir with
  | .ok m => m
  | .error _ => placeholder_model placeholderOut

/-- The preprocessed image tensor: `np.expand_dims` of the resized, RGB,
`/255`-scaled image array. -/
structure Tensor where
  batch : Nat
  height : Nat
  width : Nat
  channels : Nat
  data : List ℚ

/-- Python `preprocess_image`: PIL open + resize + RGB-convert (the external
library composite is the parameter `decodeResize`, producing the
`height*width*3` pixel bytes), scale by 255, add the batch dimension.  The
`except` clause re-raises, so the raw body is the whole function. -/
def preprocess_imageRaw (decodeResize : String → Nat × Nat → List Nat)
    (fault : Fault) (image_path : String) (target_size : Nat × Nat) :
    Except String Tensor :=
  match fault with
  | some e => .error e
  | none =>
      .ok { batch := 1, height := target_size.1, width := target_size.2,
            channels := 3,
            data := (decodeResize image_path target_size).map
              (fun b => (b : ℚ) / 255) }

/-- The fixed ordered label list of `predict_tumor_type`. -/
def class_labels : List String := ["glioma", "meningioma", "notumor", "pituitary"]

/-- Accumulator of `np.argmax`: strict improvement moves the index, so ties keep
the first occurrence. -/
def argmaxAux : List ℚ → ℚ → Nat → Nat → Nat
  | [], _, best, _ => best
  | y :: ys, cur, best, i =>
      if cur < y then argmaxAux ys y i (i + 1) else argmaxAux ys cur best (i + 1)

/-- Semantics of `np.argmax` on a 1-d array; raises on an empty array. -/
def argmaxE : List ℚ → Except String Nat
  | [] => .error "attempt to get argmax of an empty sequence"
  | x :: xs => .ok (argmaxAux xs x 0 1)

/-- Python list indexing: `IndexError` when out of range. -/
def listGetE {α : Type} (l : List α) (i : Nat) : Except String α :=
  match l[i]? with
  | some a => .ok a
  | none => .error "list index out of range"

/-- The dict comprehension
`{class_labels[i]: float(predictions[0][i]) for i in range(len(class_labels))}`
(Python dicts preserve insertion order). -/
def class_confidencesE (ps : List ℚ) : Except String (List (String × ℚ)) :=
  (List.range class_labels.length).mapM (fun i =>
    match class_labels[i]?, ps[i]? with
    | some lab, some prob => Except.ok (lab, prob)
    | _, _ => Except.error "list index out of range")

/-- The success dictionary returned by `predict_tumor_type`. -/
structure PredictionSuccess where
  predicted_class : String
  confidence : ℚ
  class_confidences : List (String × ℚ)
  raw_predictions : List ℚ
  class_labels : List String
deriving DecidableEq

/-- The returned dictionary: either the success shape or `{'error': msg}`. -/
inductive PredictResult where
  | success (r : PredictionSuccess)
  | failure (msg : String)
deriving DecidableEq

/-- Body of the `try:` block of `predict_tumor_type`. -/
def predict_tumor_typeRaw (decodeResize : String → Nat × Nat → List Nat)
    (model : KerasModel) (fault : Fault) (image_path : String) :
    Except String PredictionSuccess := do
  let pre ← preprocess_imageRaw decodeResize fault image_path (150, 150)
  let predictions0 ← model.forward pre.data
  let predicted_class_idx ← argmaxE predictions0
  let predicted_class ← listGetE class_labels predicted_class_idx
  let confidence ← listGetE predictions0 predicted_class_idx
  let class_confidences ← class_confidencesE predictions0
  pure { predicted_class := predicted_class, confidence := confidence,
         class_confidences := class_confidences,
         raw_predictions := predictions0, class_labels := class_labels }

/-- Python `predict_tumor_type`: on any exception in preprocessing, inference or
packaging, returns `{'error': str(e)}` instead of raising. -/
def predict_tumor_type (decodeResize : String → Nat × Nat → List Nat)
    (model : KerasModel) (fault : Fault) (image_path : String) : PredictResult :=
  match predict_tumor_typeRaw decodeResize model fault image_path with
  | .ok r => .success r
  | .error e => .failure e

/-! ### Spec-side definitions

These follow the specification's words (not the code) and exist only to be
compared against the code-derived definitions above. -/

/-- Case-insensitive prefix test on character lists (ASCII folding). -/
def startsWithCI : List Char → List Char → Bool
  | [], _ => true
  | _ :: _, [] => false
  | q :: qs, c :: s2 => (asciiLower q == asciiLower c) && startsWithCI qs s2

/-- Case-insensitive substring test on character lists (ASCII folding). -/
def containsCI (q : List Char) : List Char → Bool
  | [] => startsWithCI q []
  | c :: s2 => startsWithCI q (c :: s2) || containsCI q s2

/-- From the spec's words: the query is a case-insensitive substring of the
string. -/
def ciSubstring (q s : String) : Bool := containsCI q.data s.data

/-- From the spec's words: substring match against an optional field; an
absent field matches nothing. -/
def ciSubstringOpt (q : String) (field : Option String) : Bool :=
  match field with
  | none => false
  | some s => ciSubstring q s

/-- From the spec's words: a patient matches the query when it is a
case-insensitive substring of name, contact, or email (logical OR). -/
def specSearchMatch (q : String) (p : PatientRow) : Bool :=
  ciSubstring q p.name || ciSubstringOpt q p.contact || ciSubstringOpt q p.email

/-- Queries containing no SQL LIKE wildcard characters. -/
def wildcardFree (q : String) : Prop :=
  ∀ c ∈ q.data, c ≠ '%' ∧ c ≠ '_'

instance (q : String) : Decidable (wildcardFree q) := by
  unfold wildcardFree; infer_instance

/-! ### Concrete instances used by counterexamples and witnesses -/

/-- A patient named "xyz" (used to exercise the LIKE wildcard behaviour). -/
def pXyz : PatientRow :=
  { id := 1, name := "xyz", age := 30, gender := "M", contact := none,
    email := none, address := none, medical_history := none,
    registration_date := "2026-01-01" }

/-- A database holding only `pXyz`. -/
def dbXyz : DB := ⟨[pXyz], [], 2, 1⟩

/-- First-inserted scan of patient 7, dated 2024-01-01. -/
def scanA : ScanRow :=
  { id := 1, patient_id := 7, image_path := "a.png", tumor_type := none,
    confidence := none, scan_date := "2024-01-01", doctor_notes := none }

/-- Second-inserted scan of patient 7, same date as `scanA`. -/
def scanB : ScanRow :=
  { id := 2, patient_id := 7, image_path := "b.png", tumor_type := none,
    confidence := none, scan_date := "2024-01-01", doctor_notes := none }

/-- A database with one patient owning two same-dated scans. -/
def db9 : DB :=
  ⟨[{ id := 7, name := "Pat", age := 40, gender := "F", contact := none,
      email := none, address := none, medical_history := none,
      registration_date := "2023-12-31" }], [scanA, scanB], 8, 3⟩

/-- The row produced by the dangling `add_scan` on a fresh database. -/
def scan01 : ScanRow :=
  { id := 1, patient_id := 1, image_path := "scan01.png", tumor_type := none,
    confidence := none, scan_date := "2026-10-12", doctor_notes := none }

/-- The uniform length-4 distribution (a concrete softmax output). -/
def uniform4 : ProbVec4 :=
  ⟨[(1 : ℚ)/4, 1/4, 1/4, 1/4], by decide, by norm_num, by norm_num⟩

/-- A concrete model whose forward pass returns a fixed distribution. -/
def demoModel : KerasModel :=
  ⟨(150, 150, 3), 4, fun _ => .ok [(1 : ℚ), 0, 0, 0]⟩

/-- The prediction `demoModel` yields on any image. -/
def demoResult : PredictionSuccess :=
  { predicted_class := "glioma", confidence := (1 : ℚ),
    class_confidences :=
      [("glioma", (1 : ℚ)), ("meningioma", (0 : ℚ)),
       ("notumor", (0 : ℚ)), ("pituitary", (0 : ℚ))],
    raw_predictions := [(1 : ℚ), 0, 0, 0],
    class_labels := class_labels }

/-! ### Helper lemmas -/

theorem find?_congr {α : Type} (l : List α) (p q : α → Bool)
    (h : ∀ a ∈ l, p a = q a) : l.find? p = l.find? q := by
  induction l with
  | nil => rfl
  | cons a t ih =>
      rw [List.find?_cons, List.find?_cons, h a (by simp)]
      cases hqa : q a with
      | true => rfl
      | false => exact ih (fun x hx => h x (by simp [hx]))

/-! ### Claims -/

/-- C1: the claim demands that `add_scan` with a non-existent `patient_id`
fail and create no row.  On the code it does not: the sqlite connection never
enables `PRAGMA foreign_keys`, so the declared foreign key is not enforced.
On a freshly initialized database with no patients at all, `add_scan` for
patient 1 succeeds, returns fresh scan id 1, and stores a dangling scan row. -/
theorem C1_dangling_scan_created :
    emptyDB.patients = [] ∧
    get_patient emptyDB none 1 = none ∧
    add_scan emptyDB none 1 "scan01.png" none none none "2026-10-12" =
      ({ emptyDB with scans := [scan01], nextScanId := 2 }, some 1) ∧
    get_scan { emptyDB with scans := [scan01], nextScanId := 2 } none 1 =
      some scan01 ∧
    scan01.patient_id = 1 :=
  ⟨rfl, rfl, rfl, rfl, rfl⟩

/-- C2: no repository operation and no classification call propagates an
exception.  For every database, input and storage-fault message `e`, the raw
body raises (`Except.error e`) while the public operation catches it and
returns the designated absent/empty/failure value with the store unchanged;
`predict_tumor_type` turns both a preprocessing fault and a model-inference
fault into an error-carrying result value. -/
theorem C2_no_exception_propagation (db : DB) (e : String) (name : String)
    (age : Int) (gender : String)
    (contact email address medical_history : Option String) (today : String)
    (pid sid : Nat) (query : String) (tumor_type : Option String)
    (confidence : Option ℚ) (doctor_notes : Option String)
    (decodeResize : String → Nat × Nat → List Nat) (model : KerasModel)
    (image_path : String) :
    (add_patientRaw db (some e) name age gender contact email address medical_history today
        = .error e ∧
      add_patient db (some e) name age gender contact email address medical_history today
        = (db, none)) ∧
    (get_patientRaw db (some e) pid = .error e ∧
      get_patient db (some e) pid = none) ∧
    (get_all_patientsRaw db (some e) = .error e ∧
      get_all_patients db (some e) = []) ∧
    (search_patientsRaw db (some e) query = .error e ∧
      search_patients db (some e) query = []) ∧
    (add_scanRaw db (some e) pid image_path tumor_type confidence doctor_notes today
        = .error e ∧
      add_scan db (some e) pid image_path tumor_type confidence doctor_notes today
        = (db, none)) ∧
    (get_scanRaw db (some e) sid = .error e ∧
      get_scan db (some e) sid = none) ∧
    (get_patient_scansRaw db (some e) pid = .error e ∧
      get_patient_scans db (some e) pid = []) ∧
    (update_scanRaw db (some e) sid doctor_notes = .error e ∧
      update_scan db (some e) sid doctor_notes = (db, false)) ∧
    (predict_tumor_typeRaw decodeResize model (some e) image_path = .error e ∧
      predict_tumor_type decodeResize model (some e) image_path = .failure e) ∧
    predict_tumor_type decodeResize
      { inputShape := model.inputShape, numClasses := model.numClasses,
        forward := fun _ => .error e } none image_path = .failure e :=
  ⟨⟨rfl, rfl⟩, ⟨rfl, rfl⟩, ⟨rfl, rfl⟩, ⟨rfl, rfl⟩, ⟨rfl, rfl⟩, ⟨rfl, rfl⟩,
    ⟨rfl, rfl⟩, ⟨rfl, rfl⟩, ⟨rfl, rfl⟩, rfl⟩

/-- C10: `update_scan` on a scan id with no corresponding row still returns
`True` and leaves the database unchanged; the absent target is not reported
as a failure. -/
theorem C10_update_missing_scan_returns_true (db : DB) (sid : Nat)
    (notes : Option String) (h : ∀ s ∈ db.scans, s.id ≠ sid) :
    update_scan db none sid notes = (db, true) := by
  unfold update_scan update_scanRaw
  have hmap : db.scans.map (fun s =>
      if s.id == sid then { s with doctor_notes := notes } else s) = db.scans := by
    conv_rhs => rw [← List.map_id db.scans]
    apply List.map_congr_left
    intro s hs
    simp [h s hs]
  simp only [hmap]

/-- Witness for C10 at a concrete input: updating the absent scan 5 of the
fresh database succeeds with the database unchanged. -/
theorem C10_update_missing_scan_returns_true_witness :
    update_scan emptyDB none 5 (some "late note") = (emptyDB, true) :=
  C10_update_missing_scan_returns_true emptyDB 5 (some "late note") (by decide)

/-- C5: creating a patient and fetching it by the returned id yields a record
equal to the supplied fields on every field, with `registration_date` equal to
the creation date (the value of `datetime.now().strftime` at creation). -/
theorem C5_create_then_get_roundtrip (db : DB) (name : String) (age : Int)
    (gender : String) (contact email address medical_history : Option String)
    (today : String) (hWF : db.WF) (_hname : name ≠ "") :
    ∃ pid db2,
      add_patient db none name age gender contact email address medical_history today
        = (db2, some pid) ∧
      get_patient db2 none pid =
        some { id := pid, name := name, age := age, gender := gender,
               contact := contact, email := email, address := address,
               medical_history := medical_history,
               registration_date := today } := by
  refine ⟨db.nextPatientId, _, rfl, ?_⟩
  unfold get_patient get_patientRaw
  simp only [add_patient, add_patientRaw]
  rw [List.find?_append]
  have hnone : db.patients.find? (fun p => p.id == db.nextPatientId) = none := by
    rw [List.find?_eq_none]
    intro p hp
    have hlt := hWF.2.1 p hp
    simp only [beq_iff_eq]
    omega
  rw [hnone]
  simp [List.find?]

/-- Witness for C5 at a concrete input: the round trip on the fresh database
with the example patient of the spec. -/
theorem C5_create_then_get_roundtrip_witness :
    ∃ pid db2,
      add_patient emptyDB none "Jane Doe" 34 "F" none none none none "2026-10-12"
        = (db2, some pid) ∧
      get_patient db2 none pid =
        some { id := pid, name := "Jane Doe", age := 34, gender := "F",
               contact := none, email := none, address := none,
               medical_history := none, registration_date := "2026-10-12" } :=
  C5_create_then_get_roundtrip emptyDB "Jane Doe" 34 "F" none none none none
    "2026-10-12" (by decide) (by decide)

/-- C7: `update_scan` returns success, changes only the `doctor_notes` field
of the scan with the given id, and leaves the patients table, every other
scan row, and every non-notes field of every scan unchanged. -/
theorem C7_update_scan_frame (db : DB) (sid : Nat) (notes : Option String) :
    (update_scan db none sid notes).2 = true ∧
    (update_scan db none sid notes).1.patients = db.patients ∧
    (update_scan db none sid notes).1.scans.length = db.scans.length ∧
    (∀ oid, oid ≠ sid →
      get_scan (update_scan db none sid notes).1 none oid = get_scan db none oid) ∧
    (∀ s, get_scan db none sid = some s →
      get_scan (update_scan db none sid notes).1 none sid =
        some { s with doctor_notes := notes }) ∧
    (∀ s ∈ db.scans, s.id ≠ sid → s ∈ (update_scan db none sid notes).1.scans) ∧
    (∀ s2 ∈ (update_scan db none sid notes).1.scans, ∃ s ∈ db.scans,
      s2.id = s.id ∧ s2.patient_id = s.patient_id ∧
      s2.image_path = s.image_path ∧ s2.tumor_type = s.tumor_type ∧
      s2.confidence = s.confidence ∧ s2.scan_date = s.scan_date) := by
  have hupd : update_scan db none sid notes =
      ({ db with scans := db.scans.map (fun s =>
          if s.id == sid then { s with doctor_notes := notes } else s) }, true) := rfl
  rw [hupd]
  have hid : ∀ s : ScanRow,
      (if s.id == sid then { s with doctor_notes := notes } else s).id = s.id := by
    intro s
    by_cases h : s.id == sid <;> simp [h]
  refine ⟨rfl, rfl, by simp, ?_, ?_, ?_, ?_⟩
  · intro oid hoid
    unfold get_scan get_scanRaw
    simp only [List.find?_map]
    rw [find?_congr db.scans _ (fun s => s.id == oid)
      (fun s hs => by simp only [Function.comp_apply, hid s])]
    cases hfind : db.scans.find? (fun s => s.id == oid) with
    | none => simp
    | some x =>
        have hx := List.find?_some hfind
        simp only [beq_iff_eq] at hx
        have hxne : (x.id == sid) = false := by simp [hx, hoid]
        simp [hxne]
        intro h
        omega
  · intro s hs
    unfold get_scan get_scanRaw at hs ⊢
    simp only at hs
    simp only [List.find?_map]
    rw [find?_congr db.scans _ (fun s => s.id == sid)
      (fun s hs2 => by simp only [Function.comp_apply, hid s])]
    rw [hs]
    have hsid := List.find?_some hs
    simp [hsid]
    intro h
    simp only [beq_iff_eq] at hsid
    exact absurd hsid h
  · intro s hs hne
    have hfs : (if s.id == sid then { s with doctor_notes := notes } else s) = s := by
      simp [hne]
    exact hfs ▸ List.mem_map_of_mem _ hs
  · intro s2 hs2
    rcases List.mem_map.mp hs2 with ⟨s, hs, rfl⟩
    refine ⟨s, hs, ?_⟩
    by_cases h : s.id == sid <;> simp [h]

/-- Witness for C7 at a concrete input: updating scan 1 of `db9` leaves scan 2
untouched and only rewrites the notes of scan 1. -/
theorem C7_update_scan_frame_witness :
    get_scan (update_scan db9 none 1 (some "note")).1 none 2 = get_scan db9 none 2 ∧
    get_scan (update_scan db9 none 1 (some "note")).1 none 1 =
      some { scanA with doctor_notes := some "note" } := by
  have h := C7_update_scan_frame db9 1 (some "note")
  exact ⟨h.2.2.2.1 2 (by decide), h.2.2.2.2.1 scanA rfl⟩

theorem nameLe_trans (a b c : PatientRow) :
    nameLe a b → nameLe b c → nameLe a c := by
  simp only [nameLe, decide_eq_true_eq]
  exact le_trans

theorem nameLe_total (a b : PatientRow) : nameLe a b || nameLe b a := by
  simp only [nameLe, Bool.or_eq_true, decide_eq_true_eq]
  exact le_total _ _

theorem likeMatch_percent_only (t : List Char) : likeMatch ['%'] t = true := by
  induction t with
  | nil => simp [likeMatch]
  | cons c t2 ih => simp [likeMatch, ih]

theorem likeMatch_append_percent (q : List Char)
    (hq : ∀ c ∈ q, c ≠ '%' ∧ c ≠ '_') :
    ∀ t, likeMatch (q ++ ['%']) t = startsWithCI q t := by
  induction q with
  | nil =>
      intro t
      simp [startsWithCI, likeMatch_percent_only]
  | cons a q2 ih =>
      intro t
      have ha := hq a (by simp)
      cases t with
      | nil => simp [likeMatch, startsWithCI, ha.1]
      | cons c t2 =>
          simp [likeMatch, startsWithCI, ha.1, ha.2,
            ih (fun x hx => hq x (by simp [hx]))]

theorem likeMatch_contains (q : List Char)
    (hq : ∀ c ∈ q, c ≠ '%' ∧ c ≠ '_') :
    ∀ s, likeMatch ('%' :: (q ++ ['%'])) s = containsCI q s := by
  intro s
  induction s with
  | nil => simp [likeMatch, containsCI, likeMatch_append_percent q hq]
  | cons c s2 ih =>
      simp [likeMatch, containsCI, likeMatch_append_percent q hq, ih]

theorem containsCI_nil_query (s : List Char) : containsCI [] s = true := by
  induction s with
  | nil => simp [containsCI, startsWithCI]
  | cons c s2 ih => simp [containsCI, startsWithCI, ih]

/-- C6 counterexample: the claim says `search_patients` returns exactly the
case-insensitive-substring matches for every query string.  The query is
spliced into a SQL LIKE pattern, so `_` matches an arbitrary character: the
query "x_z" returns the patient named "xyz" although "x_z" is not a substring
of any of its fields. -/
theorem C6_wildcard_query_matches_non_substring :
    search_patients dbXyz none "x_z" = [pXyz] ∧
    specSearchMatch "x_z" pXyz = false := by
  constructor
  · have hmatch : likeMatch ['%', 'x', '_', 'z', '%'] "xyz".data = true := by
      simp [likeMatch, asciiLower]
    unfold search_patients search_patientsRaw
    simp only [dbXyz]
    simp [sqlLike, sqlLikeOpt, pXyz, hmatch]
  · decide

/-- C6 as amended: for every query containing no LIKE wildcard (`%`, `_`),
`search_patients` returns a list sorted by name ascending that holds exactly
the patients for which the query is an ASCII-case-insensitive substring of
name, contact, or email; the empty query returns every patient. -/
theorem C6_search_is_ci_substring_filter (db : DB) (q : String)
    (hq : wildcardFree q) :
    (search_patients db none q).Pairwise (fun a b => a.name ≤ b.name) ∧
    List.Perm (search_patients db none q)
      (db.patients.filter (specSearchMatch q)) ∧
    (q = "" → List.Perm (search_patients db none q) db.patients) := by
  have hlike : ∀ s : String, sqlLike ("%" ++ q ++ "%") s = ciSubstring q s := by
    intro s
    have hdata : ("%" ++ q ++ "%").data = '%' :: (q.data ++ ['%']) := by
      simp [String.data_append]
    unfold sqlLike ciSubstring
    rw [hdata]
    exact likeMatch_contains q.data hq s.data
  have hpred : ∀ p ∈ db.patients,
      (sqlLike ("%" ++ q ++ "%") p.name ||
        sqlLikeOpt ("%" ++ q ++ "%") p.contact ||
        sqlLikeOpt ("%" ++ q ++ "%") p.email) = specSearchMatch q p := by
    intro p _
    unfold specSearchMatch
    cases hc : p.contact <;> cases he : p.email <;>
      simp [sqlLikeOpt, ciSubstringOpt, hlike]
  have hfilter : db.patients.filter (fun p =>
      sqlLike ("%" ++ q ++ "%") p.name ||
        sqlLikeOpt ("%" ++ q ++ "%") p.contact ||
        sqlLikeOpt ("%" ++ q ++ "%") p.email) =
      db.patients.filter (specSearchMatch q) := List.filter_congr hpred
  refine ⟨?_, ?_, ?_⟩
  · unfold search_patients search_patientsRaw
    simp only
    exact (List.sorted_mergeSort nameLe_trans nameLe_total _).imp
      (fun h => by simpa [nameLe] using h)
  · unfold search_patients search_patientsRaw
    simp only [hfilter]
    exact List.mergeSort_perm _ nameLe
  · intro hq0
    subst hq0
    unfold search_patients search_patientsRaw
    simp only [hfilter]
    have hall : db.patients.filter (specSearchMatch "") = db.patients := by
      rw [List.filter_eq_self]
      intro p _
      simp [specSearchMatch, ciSubstring, containsCI_nil_query]
    rw [hall]
    exact List.mergeSort_perm _ nameLe

/-- Witness for the amended C6 at a concrete input: the wildcard-free query
"Y" on `dbXyz` is sorted and returns exactly the substring matches. -/
theorem C6_search_is_ci_substring_filter_witness :
    wildcardFree "Y" ∧
    (search_patients dbXyz none "Y").Pairwise (fun a b => a.name ≤ b.name) ∧
    List.Perm (search_patients dbXyz none "Y")
      (dbXyz.patients.filter (specSearchMatch "Y")) :=
  ⟨by decide, (C6_search_is_ci_substring_filter dbXyz "Y" (by decide)).1,
    (C6_search_is_ci_substring_filter dbXyz "Y" (by decide)).2.1⟩

theorem dateDescLe_trans (a b c : ScanRow) :
    dateDescLe a b → dateDescLe b c → dateDescLe a c := by
  simp only [dateDescLe, decide_eq_true_eq]
  intro h1 h2
  exact le_trans h2 h1

theorem dateDescLe_total (a b : ScanRow) : dateDescLe a b || dateDescLe b a := by
  simp only [dateDescLe, Bool.or_eq_true, decide_eq_true_eq]
  exact le_total _ _

theorem pair_sublist_of_lt {α : Type} :
    ∀ (l : List α) (i j : Nat) (hi : i < l.length) (hj : j < l.length),
      i < j → List.Sublist [l.get ⟨i, hi⟩, l.get ⟨j, hj⟩] l := by
  intro l
  induction l with
  | nil => intro i j hi hj hij; simp at hj
  | cons a t ih =>
      intro i j hi hj hij
      cases i with
      | zero =>
          cases j with
          | zero => omega
          | succ j2 =>
              refine List.Sublist.cons₂ a ?_
              exact List.singleton_sublist.mpr (List.get_mem t j2 _)
      | succ i2 =>
          cases j with
          | zero => omega
          | succ j2 =>
              exact List.Sublist.cons a
                (ih i2 j2 (by simpa using hi) (by simpa using hj) (by omega))

theorem sublist_pair_antisymm {α : Type} :
    ∀ (r : List α), r.Nodup → ∀ x y : α,
      List.Sublist [x, y] r → List.Sublist [y, x] r → x = y := by
  intro r
  induction r with
  | nil =>
      intro _ x y hxy _
      simp at hxy
  | cons a t ih =>
      intro hnd x y hxy hyx
      have hhead : a ∉ t := (List.nodup_cons.mp hnd).1
      have htail : t.Nodup := (List.nodup_cons.mp hnd).2
      cases hxy with
      | cons _ h1 =>
          cases hyx with
          | cons _ h2 => exact ih htail x y h1 h2
          | cons₂ _ h2 =>
              exact absurd (h1.subset (by simp)) hhead
      | cons₂ _ h1 =>
          cases hyx with
          | cons _ h2 =>
              exact absurd (h2.subset (by simp)) hhead
          | cons₂ _ h2 => rfl

theorem mergeSort_dateDesc_pairwise (l : List ScanRow)
    (hids : l.Pairwise (fun a b => a.id < b.id)) :
    (l.mergeSort dateDescLe).Pairwise (fun a b =>
      b.scan_date < a.scan_date ∨ (a.scan_date = b.scan_date ∧ a.id < b.id)) := by
  have hnodup : l.Nodup :=
    hids.imp (fun hlt heq => by subst heq; omega)
  have hperm := List.mergeSort_perm l dateDescLe
  have hnodup2 : (l.mergeSort dateDescLe).Nodup := hperm.nodup_iff.mpr hnodup
  have hsorted := List.sorted_mergeSort dateDescLe_trans dateDescLe_total l
  rw [List.pairwise_iff_getElem]
  intro i j hi hj hij
  have hle : dateDescLe (l.mergeSort dateDescLe)[i] (l.mergeSort dateDescLe)[j] :=
    List.pairwise_iff_getElem.mp hsorted i j hi hj hij
  have hdate : (l.mergeSort dateDescLe)[j].scan_date ≤
      (l.mergeSort dateDescLe)[i].scan_date := by
    simpa [dateDescLe] using hle
  rcases lt_or_eq_of_le hdate with hlt | heq
  · exact Or.inl hlt
  · refine Or.inr ⟨heq.symm, ?_⟩
    obtain ⟨m, hm, hxm⟩ :=
      List.getElem_of_mem (hperm.subset (List.getElem_mem hi))
    obtain ⟨n, hn, hxn⟩ :=
      List.getElem_of_mem (hperm.subset (List.getElem_mem hj))
    have hne : (l.mergeSort dateDescLe)[i] ≠ (l.mergeSort dateDescLe)[j] := by
      intro heq2
      have : i = j := (List.Nodup.getElem_inj_iff hnodup2).mp heq2
      omega
    rcases Nat.lt_trichotomy m n with hmn | hmn | hmn
    · have := (List.pairwise_iff_getElem.mp hids) m n hm hn hmn
      rw [hxm, hxn] at this
      exact this
    · exfalso
      subst hmn
      exact hne (hxm.symm.trans hxn)
    · exfalso
      have hpair : List.Sublist [l.get ⟨n, hn⟩, l.get ⟨m, hm⟩] l :=
        pair_sublist_of_lt l n m hn hm hmn
      simp only [List.get_eq_getElem] at hpair
      rw [hxm, hxn] at hpair
      have hab : dateDescLe (l.mergeSort dateDescLe)[j] (l.mergeSort dateDescLe)[i] := by
        simp [dateDescLe, heq]
      have hsub := List.pair_sublist_mergeSort dateDescLe_trans dateDescLe_total hab hpair
      have hpair2 : List.Sublist [(l.mergeSort dateDescLe).get ⟨i, hi⟩,
          (l.mergeSort dateDescLe).get ⟨j, hj⟩] (l.mergeSort dateDescLe) :=
        pair_sublist_of_lt _ i j hi hj hij
      simp only [List.get_eq_getElem] at hpair2
      exact hne (sublist_pair_antisymm _ hnodup2 _ _ hpair2 hsub)

/-- C9 counterexample: the claim says equal-`scan_date` scans come back most
recently inserted first.  The sqlite sorter returns equal keys in table-scan
order, so on `db9` (scan 1 inserted before scan 2, same date) the code
returns scan 1 first, not scan 2. -/
theorem C9_tie_order_counterexample :
    get_patient_scans db9 none 7 = [scanA, scanB] ∧
    scanA.scan_date = scanB.scan_date ∧
    scanA ≠ scanB ∧
    get_patient_scans db9 none 7 ≠ [scanB, scanA] := by
  have hsorted : List.Pairwise (fun a b => dateDescLe a b = true) [scanA, scanB] := by
    simp [dateDescLe, scanA, scanB]
  have heval : get_patient_scans db9 none 7 = [scanA, scanB] := by
    unfold get_patient_scans get_patient_scansRaw
    simp only
    have hfil : db9.scans.filter (fun s => s.patient_id == 7) = [scanA, scanB] := rfl
    rw [hfil, List.mergeSort_of_sorted hsorted]
  refine ⟨heval, rfl, by decide, by rw [heval]; decide⟩

/-- C9 as amended: `get_patient_scans` returns exactly the patient's scans,
sorted by `scan_date` descending, and among scans with equal `scan_date` the
EARLIEST-inserted scan (smallest AUTOINCREMENT id) comes first. -/
theorem C9_scans_sorted_date_desc_ties_insertion (db : DB) (pid : Nat)
    (hWF : db.WF) :
    (∀ s ∈ get_patient_scans db none pid, s.patient_id = pid) ∧
    List.Perm (get_patient_scans db none pid)
      (db.scans.filter (fun s => s.patient_id == pid)) ∧
    (get_patient_scans db none pid).Pairwise (fun a b =>
      b.scan_date < a.scan_date ∨ (a.scan_date = b.scan_date ∧ a.id < b.id)) := by
  have heq : get_patient_scans db none pid =
      (db.scans.filter (fun s => s.patient_id == pid)).mergeSort dateDescLe := rfl
  rw [heq]
  refine ⟨?_, List.mergeSort_perm _ _, ?_⟩
  · intro s hs
    have hs2 := (List.mem_filter.mp (List.mem_mergeSort.mp hs)).2
    simpa using hs2
  · exact mergeSort_dateDesc_pairwise _ (hWF.2.2.1.filter _)

/-- Witness for the amended C9 at a concrete input: the two same-dated scans
of `db9` come back date-sorted with the earlier id first. -/
theorem C9_scans_sorted_witness :
    (∀ s ∈ get_patient_scans db9 none 7, s.patient_id = 7) ∧
    List.Perm (get_patient_scans db9 none 7)
      (db9.scans.filter (fun s => s.patient_id == 7)) ∧
    (get_patient_scans db9 none 7).Pairwise (fun a b =>
      b.scan_date < a.scan_date ∨ (a.scan_date = b.scan_date ∧ a.id < b.id)) :=
  C9_scans_sorted_date_desc_ties_insertion db9 7 (by decide)

theorem except_bind_ok {ε α β : Type} (a : α) (f : α → Except ε β) :
    (Except.ok a >>= f) = f a := rfl

theorem except_bind_error {ε α β : Type} (e : ε) (f : α → Except ε β) :
    ((Except.error e : Except ε α) >>= f) = Except.error e := rfl

theorem argmaxAux_spec (l : List ℚ) :
    ∀ (xs : List ℚ) (i : Nat) (cur : ℚ) (best : Nat),
      l.drop i = xs → i ≤ l.length → best < i → l.getD best 0 = cur →
      (∀ j, j < i → l.getD j 0 ≤ cur) →
      (∀ j, j < best → l.getD j 0 < cur) →
      argmaxAux xs cur best i < l.length ∧
        (∀ j, j < l.length → l.getD j 0 ≤ l.getD (argmaxAux xs cur best i) 0) ∧
        (∀ j, j < argmaxAux xs cur best i →
          l.getD j 0 < l.getD (argmaxAux xs cur best i) 0) := by
  intro xs
  induction xs with
  | nil =>
      intro i cur best hdrop hi hbest hcur hall hstrict
      have hlen : l.length ≤ i := List.drop_eq_nil_iff.mp hdrop
      simp only [argmaxAux]
      refine ⟨by omega, ?_, ?_⟩
      · intro j hj
        have h2 := hall j (by omega)
        rw [← hcur] at h2
        exact h2
      · intro j hj
        have h2 := hstrict j hj
        rw [← hcur] at h2
        exact h2
  | cons y ys ih =>
      intro i cur best hdrop hi hbest hcur hall hstrict
      have hilt : i < l.length := by
        by_contra hc
        push_neg at hc
        rw [List.drop_eq_nil_of_le hc] at hdrop
        exact List.noConfusion hdrop
      have hyi : l.getD i 0 = y := by
        have h0 : (l.drop i)[0]? = l[i + 0]? := List.getElem?_drop l i 0
        rw [hdrop] at h0
        simp only [List.getElem?_cons_zero, Nat.add_zero] at h0
        simp [List.getD_eq_getElem?_getD, ← h0]
      have hdrop2 : l.drop (i + 1) = ys := by
        have h1 := List.drop_drop 1 i l
        rw [hdrop] at h1
        simpa using h1.symm
      simp only [argmaxAux]
      by_cases hcy : cur < y
      · rw [if_pos hcy]
        apply ih (i + 1) y i hdrop2 (by omega) (by omega) hyi
        · intro j hj
          rcases Nat.lt_succ_iff_lt_or_eq.mp hj with hj2 | hj2
          · exact le_of_lt (lt_of_le_of_lt (hall j hj2) hcy)
          · subst hj2
            rw [hyi]
        · intro j hj
          exact lt_of_le_of_lt (hall j hj) hcy
      · rw [if_neg hcy]
        push_neg at hcy
        apply ih (i + 1) cur best hdrop2 (by omega) (by omega) hcur
        · intro j hj
          rcases Nat.lt_succ_iff_lt_or_eq.mp hj with hj2 | hj2
          · exact hall j hj2
          · subst hj2
            rw [hyi]
            exact hcy
        · exact hstrict

theorem argmaxE_spec (l : List ℚ) (k : Nat) (h : argmaxE l = .ok k) :
    k < l.length ∧ (∀ j, j < l.length → l.getD j 0 ≤ l.getD k 0) ∧
    (∀ j, j < k → l.getD j 0 < l.getD k 0) := by
  cases l with
  | nil => exact Except.noConfusion h
  | cons x xs =>
      have hx : argmaxE (x :: xs) = .ok (argmaxAux xs x 0 1) := rfl
      rw [hx] at h
      injection h with h2
      subst h2
      apply argmaxAux_spec (x :: xs) xs 1 x 0 rfl (by simp) (by omega) (by simp)
      · intro j hj
        have hj0 : j = 0 := by omega
        subst hj0
        simp
      · intro j hj
        omega

theorem listGetE_ok {α : Type} (l : List α) (i : Nat) (h : i < l.length) :
    ∃ v, listGetE l i = .ok v ∧ l[i]? = some v := by
  unfold listGetE
  rw [List.getElem?_eq_getElem h]
  exact ⟨_, rfl, rfl⟩

theorem range_class_labels_length :
    List.range class_labels.length = [0, 1, 2, 3] := rfl

theorem class_confidencesE_of_four (a b c d : ℚ) (rest : List ℚ) :
    class_confidencesE (a :: b :: c :: d :: rest) =
      .ok [("glioma", a), ("meningioma", b), ("notumor", c), ("pituitary", d)] := by
  unfold class_confidencesE
  rw [range_class_labels_length]
  simp only [List.mapM_cons, List.mapM_nil]
  simp [class_labels, except_bind_ok, except_bind_error]

theorem class_confidencesE_short (ps : List ℚ) (h : ps.length < 4) :
    class_confidencesE ps = .error "list index out of range" := by
  rcases ps with _ | ⟨a, _ | ⟨b, _ | ⟨c, _ | ⟨d, rest⟩⟩⟩⟩
  · unfold class_confidencesE
    rw [range_class_labels_length]
    simp only [List.mapM_cons, List.mapM_nil]
    simp [class_labels, except_bind_ok, except_bind_error]
  · unfold class_confidencesE
    rw [range_class_labels_length]
    simp only [List.mapM_cons, List.mapM_nil]
    simp [class_labels, except_bind_ok, except_bind_error]
  · unfold class_confidencesE
    rw [range_class_labels_length]
    simp only [List.mapM_cons, List.mapM_nil]
    simp [class_labels, except_bind_ok, except_bind_error]
  · unfold class_confidencesE
    rw [range_class_labels_length]
    simp only [List.mapM_cons, List.mapM_nil]
    simp [class_labels, except_bind_ok, except_bind_error]
  · simp at h
    omega

theorem class_confidencesE_ok_inv (ps : List ℚ) (cc : List (String × ℚ))
    (h : class_confidencesE ps = .ok cc) :
    4 ≤ ps.length ∧ cc = class_labels.zip ps := by
  rcases hlen : ps.length.lt_or_ge 4 with hl | hl
  all_goals clear hlen
  · rw [class_confidencesE_short ps hl] at h
    exact Except.noConfusion h
  · rcases ps with _ | ⟨a, _ | ⟨b, _ | ⟨c, _ | ⟨d, rest⟩⟩⟩⟩ <;> simp at hl
    rw [class_confidencesE_of_four] at h
    injection h with h2
    subst h2
    exact ⟨by simp, rfl⟩

theorem predict_eq_success_iff (decodeResize : String → Nat × Nat → List Nat)
    (model : KerasModel) (fault : Fault) (image_path : String)
    (r : PredictionSuccess) :
    predict_tumor_type decodeResize model fault image_path = .success r ↔
      predict_tumor_typeRaw decodeResize model fault image_path = .ok r := by
  unfold predict_tumor_type
  cases h : predict_tumor_typeRaw decodeResize model fault image_path <;> simp

theorem predict_success_inv (decodeResize : String → Nat × Nat → List Nat)
    (model : KerasModel) (fault : Fault) (image_path : String)
    (r : PredictionSuccess)
    (h : predict_tumor_type decodeResize model fault image_path = .success r) :
    ∃ t ps k,
      preprocess_imageRaw decodeResize fault image_path (150, 150) = .ok t ∧
      model.forward t.data = .ok ps ∧ argmaxE ps = .ok k ∧
      listGetE class_labels k = .ok r.predicted_class ∧
      listGetE ps k = .ok r.confidence ∧
      class_confidencesE ps = .ok r.class_confidences ∧
      r.raw_predictions = ps ∧ r.class_labels = class_labels := by
  rw [predict_eq_success_iff] at h
  unfold predict_tumor_typeRaw at h
  cases hpre : preprocess_imageRaw decodeResize fault image_path (150, 150) with
  | error e =>
      rw [hpre, except_bind_error] at h
      exact Except.noConfusion h
  | ok t =>
      rw [hpre, except_bind_ok] at h
      cases hfwd : model.forward t.data with
      | error e =>
          rw [hfwd, except_bind_error] at h
          exact Except.noConfusion h
      | ok ps =>
          rw [hfwd, except_bind_ok] at h
          cases hidx : argmaxE ps with
          | error e =>
              rw [hidx, except_bind_error] at h
              exact Except.noConfusion h
          | ok k =>
              rw [hidx, except_bind_ok] at h
              cases hlab : listGetE class_labels k with
              | error e =>
                  rw [hlab, except_bind_error] at h
                  exact Except.noConfusion h
              | ok pc =>
                  rw [hlab, except_bind_ok] at h
                  cases hconf : listGetE ps k with
                  | error e =>
                      rw [hconf, except_bind_error] at h
                      exact Except.noConfusion h
                  | ok cf =>
                      rw [hconf, except_bind_ok] at h
                      cases hcc : class_confidencesE ps with
                      | error e =>
                          rw [hcc, except_bind_error] at h
                          exact Except.noConfusion h
                      | ok cc =>
                          rw [hcc, except_bind_ok] at h
                          injection h with h2
                          subst h2
                          exact ⟨t, ps, k, rfl, hfwd, hidx, hlab, hconf, hcc,
                            rfl, rfl⟩

theorem predict_ok_of_forward_len4 (decodeResize : String → Nat × Nat → List Nat)
    (model : KerasModel) (image_path : String)
    (hm : ∀ t, ∃ ps, model.forward t = .ok ps ∧ ps.length = 4) :
    ∃ r, predict_tumor_type decodeResize model none image_path = .success r := by
  obtain ⟨t, hpre⟩ : ∃ t,
      preprocess_imageRaw decodeResize none image_path (150, 150) = .ok t :=
    ⟨_, rfl⟩
  obtain ⟨ps, hfwd, hlen⟩ := hm t.data
  rcases ps with _ | ⟨a, _ | ⟨b, _ | ⟨c, _ | ⟨d, rest⟩⟩⟩⟩
  · exact absurd hlen (by simp)
  · exact absurd hlen (by simp)
  · exact absurd hlen (by simp)
  · exact absurd hlen (by simp)
  · have hrest : rest = [] := by simpa using hlen
    subst hrest
    have hidx : argmaxE [a, b, c, d] = .ok (argmaxAux [b, c, d] a 0 1) := rfl
    obtain ⟨hklt, -, -⟩ := argmaxE_spec [a, b, c, d] _ hidx
    have hklt4 : argmaxAux [b, c, d] a 0 1 < 4 := by simpa using hklt
    obtain ⟨pc, hpc, -⟩ := listGetE_ok class_labels (argmaxAux [b, c, d] a 0 1)
      (by simpa [class_labels] using hklt4)
    obtain ⟨cf, hcf, -⟩ := listGetE_ok [a, b, c, d] (argmaxAux [b, c, d] a 0 1)
      (by simpa using hklt4)
    refine ⟨{ predicted_class := pc,
              confidence := cf,
              class_confidences := [("glioma", a), ("meningioma", b),
                ("notumor", c), ("pituitary", d)],
              raw_predictions := [a, b, c, d],
              class_labels := class_labels }, ?_⟩
    rw [predict_eq_success_iff]
    unfold predict_tumor_typeRaw
    rw [hpre, except_bind_ok, hfwd, except_bind_ok, hidx, except_bind_ok,
      hpc, except_bind_ok, hcf, except_bind_ok,
      class_confidencesE_of_four a b c d [], except_bind_ok]
    rfl

theorem listGetE_ok_inv {α : Type} (l : List α) (i : Nat) (v : α)
    (h : listGetE l i = .ok v) : l[i]? = some v := by
  unfold listGetE at h
  cases hc : l[i]? with
  | none =>
      rw [hc] at h
      exact Except.noConfusion h
  | some w =>
      rw [hc] at h
      injection h with h2
      rw [h2]

/-- C3: `load_brain_tumor_model` never throws: it either returns the loaded
artifact, or -- whenever the path resolution or the artifact load raises --
returns the placeholder model, which has input shape 150x150x3 and a 4-way
categorical output, so a subsequent classification still returns a
well-formed success result rather than an error. -/
theorem C3_model_acquisition_total (pathExists : String → Bool)
    (load_model : String → Except String KerasModel) (moduleDir : String)
    (placeholderOut : List ℚ → ProbVec4) :
    ((∃ m, load_brain_tumor_modelRaw pathExists load_model moduleDir = .ok m ∧
        load_brain_tumor_model pathExists load_model moduleDir placeholderOut = m) ∨
      (∃ e, load_brain_tumor_modelRaw pathExists load_model moduleDir = .error e ∧
        load_brain_tumor_model pathExists load_model moduleDir placeholderOut =
          placeholder_model placeholderOut)) ∧
    (placeholder_model placeholderOut).inputShape = (150, 150, 3) ∧
    (placeholder_model placeholderOut).numClasses = 4 ∧
    (∀ decodeResize image_path, ∃ r,
      predict_tumor_type decodeResize (placeholder_model placeholderOut) none
        image_path = .success r) := by
  refine ⟨?_, rfl, rfl, ?_⟩
  · cases hraw : load_brain_tumor_modelRaw pathExists load_model moduleDir with
    | ok m =>
        refine Or.inl ⟨m, rfl, ?_⟩
        unfold load_brain_tumor_model
        rw [hraw]
    | error e =>
        refine Or.inr ⟨e, rfl, ?_⟩
        unfold load_brain_tumor_model
        rw [hraw]
  · intro decodeResize image_path
    apply predict_ok_of_forward_len4
    intro t
    exact ⟨(placeholderOut t).p, rfl, (placeholderOut t).len4⟩

/-- C4: on every successful prediction from a 4-output model, the predicted
class is the label at the first arg-max index of the probability vector, the
confidence is the probability at that index, the returned mapping pairs every
one of the four labels with its probability, and looking the predicted class
up in the mapping yields exactly the confidence. -/
theorem C4_prediction_argmax_semantics
    (decodeResize : String → Nat × Nat → List Nat) (model : KerasModel)
    (fault : Fault) (image_path : String) (r : PredictionSuccess)
    (hm : ∀ t ps, model.forward t = .ok ps → ps.length = 4)
    (h : predict_tumor_type decodeResize model fault image_path = .success r) :
    r.class_labels = class_labels ∧
    r.raw_predictions.length = 4 ∧
    r.class_confidences = class_labels.zip r.raw_predictions ∧
    (∃ k, k < 4 ∧
      (∀ j, j < 4 → r.raw_predictions.getD j 0 ≤ r.raw_predictions.getD k 0) ∧
      (∀ j, j < k → r.raw_predictions.getD j 0 < r.raw_predictions.getD k 0) ∧
      class_labels[k]? = some r.predicted_class ∧
      r.raw_predictions[k]? = some r.confidence) ∧
    r.class_confidences.lookup r.predicted_class = some r.confidence := by
  obtain ⟨t, ps, k, hpre, hfwd, hidx, hlab, hconf, hcc, hraw, hlabels⟩ :=
    predict_success_inv decodeResize model fault image_path r h
  have hlen := hm _ _ hfwd
  obtain ⟨hklt, hmax, hstrict⟩ := argmaxE_spec ps k hidx
  obtain ⟨-, hzip⟩ := class_confidencesE_ok_inv ps _ hcc
  have hlab2 := listGetE_ok_inv class_labels k _ hlab
  have hconf2 := listGetE_ok_inv ps k _ hconf
  have hk4 : k < 4 := by omega
  refine ⟨hlabels, by rw [hraw]; exact hlen, by rw [hraw]; exact hzip,
    ⟨k, hk4, ?_, ?_, hlab2, by rw [hraw]; exact hconf2⟩, ?_⟩
  · intro j hj
    rw [hraw]
    exact hmax j (by omega)
  · intro j hj
    rw [hraw]
    exact hstrict j hj
  · rw [hzip]
    rcases ps with _ | ⟨a, _ | ⟨b, _ | ⟨c, _ | ⟨d, rest⟩⟩⟩⟩ <;> simp at hlen
    have hrest : rest = [] := by simpa using hlen
    subst hrest
    interval_cases k <;> simp [class_labels] at hlab2 hconf2 <;>
      simp [class_labels, List.lookup, ← hlab2, ← hconf2]

/-- C8: on every successful prediction from a model whose outputs are 4-entry
probability vectors (as a softmax layer produces), each value of the returned
`class_confidences` lies in `[0, 1]` and the four values sum to `1`, hence
within the `1e-3` tolerance. -/
theorem C8_confidences_are_distribution
    (decodeResize : String → Nat × Nat → List Nat) (model : KerasModel)
    (fault : Fault) (image_path : String) (r : PredictionSuccess)
    (hm : ∀ t ps, model.forward t = .ok ps →
      ps.length = 4 ∧ (∀ x ∈ ps, 0 ≤ x ∧ x ≤ 1) ∧ ps.sum = 1)
    (h : predict_tumor_type decodeResize model fault image_path = .success r) :
    (∀ x ∈ r.class_confidences.map Prod.snd, 0 ≤ x ∧ x ≤ 1) ∧
    |(r.class_confidences.map Prod.snd).sum - 1| ≤ 1 / 1000 := by
  obtain ⟨t, ps, k, hpre, hfwd, hidx, hlab, hconf, hcc, hraw, hlabels⟩ :=
    predict_success_inv decodeResize model fault image_path r h
  obtain ⟨hlen, hbounds, hsum⟩ := hm _ _ hfwd
  obtain ⟨-, hzip⟩ := class_confidencesE_ok_inv ps _ hcc
  rcases ps with _ | ⟨a, _ | ⟨b, _ | ⟨c, _ | ⟨d, rest⟩⟩⟩⟩ <;> simp at hlen
  have hrest : rest = [] := by simpa using hlen
  subst hrest
  have hsnd : r.class_confidences.map Prod.snd = [a, b, c, d] := by
    rw [hzip]
    simp [class_labels]
  rw [hsnd]
  constructor
  · intro x hx
    exact hbounds x hx
  · rw [hsum]
    norm_num

/-- Evaluation of the demo model's prediction, used by the witnesses. -/
theorem demo_predict_eval :
    predict_tumor_type (fun _ _ => []) demoModel none "img.png" =
      .success demoResult := by
  rw [predict_eq_success_iff]
  unfold predict_tumor_typeRaw
  have hpre : preprocess_imageRaw (fun _ _ => []) none "img.png" (150, 150) =
      .ok { batch := 1, height := 150, width := 150, channels := 3,
            data := ([] : List ℚ) } := rfl
  rw [hpre, except_bind_ok]
  have hfwd : demoModel.forward ([] : List ℚ) = .ok [(1 : ℚ), 0, 0, 0] := rfl
  have hdata : (Tensor.data
      { batch := 1, height := 150, width := 150, channels := 3,
        data := ([] : List ℚ) : Tensor }) = ([] : List ℚ) := rfl
  rw [hdata]
  rw [hfwd, except_bind_ok]
  have hidx0 : argmaxE [(1 : ℚ), 0, 0, 0] = .ok 0 := by
    have h1 : argmaxE [(1 : ℚ), 0, 0, 0] = .ok (argmaxAux [0, 0, 0] 1 0 1) := rfl
    rw [h1]
    norm_num [argmaxAux]
  rw [hidx0, except_bind_ok]
  have hl0 : listGetE class_labels 0 = .ok "glioma" := rfl
  rw [hl0, except_bind_ok]
  have hc0 : listGetE [(1 : ℚ), 0, 0, 0] 0 = .ok 1 := rfl
  rw [hc0, except_bind_ok]
  rw [class_confidencesE_of_four 1 0 0 0 [], except_bind_ok]
  rfl

/-- Witness for C4 at a concrete input: the demo model's prediction satisfies
the arg-max packaging contract. -/
theorem C4_prediction_argmax_semantics_witness :
    demoResult.class_labels = class_labels ∧
    demoResult.raw_predictions.length = 4 ∧
    demoResult.class_confidences = class_labels.zip demoResult.raw_predictions ∧
    demoResult.class_confidences.lookup demoResult.predicted_class =
      some demoResult.confidence := by
  have h := C4_prediction_argmax_semantics (fun _ _ => []) demoModel none
    "img.png" demoResult
    (by
      intro t ps hps
      injection hps with h2
      rw [← h2]
      rfl)
    demo_predict_eval
  exact ⟨h.1, h.2.1, h.2.2.1, h.2.2.2.2⟩

/-- Witness for C8 at a concrete input: the demo model's confidences form a
distribution within tolerance. -/
theorem C8_confidences_are_distribution_witness :
    (∀ x ∈ demoResult.class_confidences.map Prod.snd, 0 ≤ x ∧ x ≤ 1) ∧
    |(demoResult.class_confidences.map Prod.snd).sum - 1| ≤ 1 / 1000 :=
  C8_confidences_are_distribution (fun _ _ => []) demoModel none "img.png"
    demoResult
    (by
      intro t ps hps
      injection hps with h2
      rw [← h2]
      exact ⟨rfl, by norm_num, by norm_num⟩)
    demo_predict_eval

end BrainTumor
